import Mathlib

/-!
Verification of the user-space filesystem stack (block device, page cache,
VFS inode/file layer) against its natural-language specification.

The definitions below are a shallow embedding of the C++ sources:

* `src/fs/src/block/block_device.cpp` (`MemoryBlockDevice`)
* `src/fs/src/cache/page_cache.cpp` (`Page`, `PageCache`)
* `src/fs/src/vfs/inode.cpp` (`Inode::read/write/truncate`)
* `src/fs/src/vfs/file.cpp` (`File::seek`)

Conventions of the embedding:

* Machine integers (`u64`, `size_t`, …) are `Nat`; wraparound is written
  explicitly with `% 2 ^ 64` where the source's arithmetic can wrap
  (only `File::seek` needs it for the claims below).
* Byte buffers (the device's `data_` vector, a page's 4096-byte buffer) are
  modelled as functions `Nat → Nat` (byte index to byte value) together with
  explicit byte sizes; `memcpy` is the pointwise `overlayFn`.  User buffers
  passed to `Inode::write`, and the bytes a read copies out, are `List Nat`.
* `Result<T>` is `Except ErrorCode T`.  Note that the C++
  `Result<void>(ErrorCode::SUCCESS)` constructor produces an err-flagged
  result carrying `SUCCESS`; we embed that value faithfully as
  `Except.error ErrorCode.eSuccess`.
* Shared `Page` objects are given identities (`Nat` page ids).  `FsState.store`
  is the heap of all pages ever allocated (entries are never deleted, so a
  page's final state remains observable after it is unlinked); cache
  membership is `FsState.index`, mirroring the C++ `pages_` hash map.
* The C++ code runs under mutexes; the sequential semantics embedded here is
  the code's behaviour for a single thread holding the locks.  The one claim
  about interleavings (`read_page` miss collapse) gets its own small-step
  two-thread model further below (`RP*` definitions).
* Timestamps (`atime`/`mtime`/`ctime`) and the always-non-null `ops_` /
  block-device pointers are not modelled; no claim below depends on them.
-/

/-- Error codes from `src/fs/include/types.h` (`enum class ErrorCode`). -/
inductive ErrorCode where
  | eSuccess
  | eNoEnt
  | eIoErr
  | eNoMem
  | eAcces
  | eExist
  | eNotDir
  | eIsDir
  | eInval
  | eNoSpc
  | eRoFs
deriving DecidableEq

deriving instance DecidableEq for Except

/-- Embeds `Result<T>` from `src/fs/include/types.h`. -/
abbrev CRes (α : Type) := Except ErrorCode α

/-- Embeds `PageState` from the page-cache header (`src/unnamed/part_004`, lines 17-24). -/
inductive PageState where
  | clean
  | dirty
  | locked
  | error
  | uptodate
  | writeback
deriving DecidableEq, Fintype

/-- Embeds `PAGE_SIZE` from `src/fs/include/types.h`. -/
def PAGE_SZ : Nat := 4096

/-- In-memory block device (`MemoryBlockDevice`, `src/fs/src/block/block_device.cpp`):
the byte vector `data_` as a function plus its byte size, the sector size,
and the read-only flag. -/
structure MemDevice where
  data : Nat → Nat
  size : Nat
  sectorSize : Nat
  readonly : Bool

/-- Models `memcpy(dst + pos, src, len)` on byte buffers: bytes `[pos, pos + len)`
of `dst` are overwritten with `src[0, len)`; everything else is unchanged. -/
def overlayFn (dst : Nat → Nat) (pos : Nat) (src : Nat → Nat) (len : Nat) : Nat → Nat :=
  fun i => if pos ≤ i ∧ i < pos + len then src (i - pos) else dst i

/-- Association-list lookup (stands in for `std::unordered_map::find`). -/
def lookupA {κ α : Type} [DecidableEq κ] : List (κ × α) → κ → Option α
  | [], _ => none
  | (k', v) :: t, k => if k' = k then some v else lookupA t k

/-- Association-list insert-or-update (stands in for `map[k] = v`). -/
def asetA {κ α : Type} [DecidableEq κ] : List (κ × α) → κ → α → List (κ × α)
  | [], k, v => [(k, v)]
  | (k', v') :: t, k, v => if k' = k then (k, v) :: t else (k', v') :: asetA t k v

/-- Embeds `MemoryBlockDevice::read` (`block_device.cpp:52-70`): bounds check against
the byte size, clamp, copy out `actual_size` bytes. Returns the bytes read
(the C++ fills the caller's buffer and returns the count). -/
def MemDevice.read (d : MemDevice) (sector : Nat) (rsize : Nat) :
    CRes (Nat × (Nat → Nat)) :=
  let offset := sector * d.sectorSize
  if offset ≥ d.size then .error ErrorCode.eInval
  else
    let actual := min rsize (d.size - offset)
    .ok (actual, fun i => d.data (offset + i))

/-- Embeds `MemoryBlockDevice::write` (`block_device.cpp:72-94`): the read-only check
comes first, before any byte of the backing vector is touched; then bounds
check, clamp, and `memcpy` into `data_`.  Returns the count and the updated
device. -/
def MemDevice.write (d : MemDevice) (sector : Nat) (src : Nat → Nat) (wsize : Nat) :
    CRes Nat × MemDevice :=
  if d.readonly then (.error ErrorCode.eRoFs, d)
  else
    let offset := sector * d.sectorSize
    if offset ≥ d.size then (.error ErrorCode.eInval, d)
    else
      let actual := min wsize (d.size - offset)
      (.ok actual, { d with data := overlayFn d.data offset src actual })

/-- One cached page (`class Page`, `src/unnamed/part_004` / `page_cache.cpp:11-23`):
file offset, owning inode (by id), `ref_count_`, `state_`, the 4096-byte
buffer, and the `in_lru_` flag. -/
structure PageRec where
  offset : Nat
  inodeId : Nat
  refCount : Nat
  state : PageState
  data : Nat → Nat
  inLru : Bool

/-- Embeds `FileAttribute` (`src/unnamed/part_003`): only the fields the claims
touch — `mode` and `size`.  Timestamps are not modelled. -/
structure InodeAttr where
  mode : Nat
  size : Nat
deriving DecidableEq

/-- Embeds `FileMode::is_writable` (`types.h:52`): `mode & 0200`. -/
def isWritable (mode : Nat) : Bool := mode &&& 128 ≠ 0

/-- Combined state: the global `g_page_cache` (`PageCache` fields from
`src/unnamed/part_004:106-135`), the backing block device reached through
`inode->get_block_device()`, and the inode attribute records. -/
structure FsState where
  dev : MemDevice
  store : List (Nat × PageRec)
  nextId : Nat
  index : List ((Nat × Nat) × Nat)
  lru : List Nat
  dirtyList : List Nat
  maxPages : Nat
  currentPages : Nat
  hits : Nat
  misses : Nat
  evictions : Nat
  writebacks : Nat
  inodes : List (Nat × InodeAttr)

/-- Update the record of page `pid` in place (mutation of the shared `Page`). -/
def updPage (s : FsState) (pid : Nat) (f : PageRec → PageRec) : FsState :=
  { s with store := s.store.map (fun e => if e.1 = pid then (e.1, f e.2) else e) }

/-- Reads `page->get_state()`, as an `Option` (`none` = dangling id, unreachable). -/
def pageStateOf (s : FsState) (pid : Nat) : Option PageState :=
  (lookupA s.store pid).map (·.state)

/-- Reads `page->get_data()`. -/
def pageDataOf (s : FsState) (pid : Nat) : Nat → Nat :=
  ((lookupA s.store pid).map (·.data)).getD (fun _ => 0)

/-- Reads `inode->attr_` (missing inode yields a zero record; all claims use
states where the inode is present). -/
def getAttr (s : FsState) (ino : Nat) : InodeAttr :=
  (lookupA s.inodes ino).getD ⟨0, 0⟩

/-- Embeds `PageCache::update_lru` (`page_cache.cpp:399-406`): if the page is in the
LRU, splice it out and push it to the front. -/
def updateLru (s : FsState) (pid : Nat) : FsState :=
  match lookupA s.store pid with
  | some r => if r.inLru then { s with lru := pid :: s.lru.filter (· ≠ pid) } else s
  | none => s

/-- Embeds `PageCache::remove_from_lru` (`page_cache.cpp:408-413`). -/
def removeFromLru (s : FsState) (pid : Nat) : FsState :=
  match lookupA s.store pid with
  | some r =>
      if r.inLru then
        { (updPage s pid (fun r => { r with inLru := false })) with
          lru := s.lru.filter (· ≠ pid) }
      else s
  | none => s

/-- Embeds `Page::mark_dirty` (`page_cache.cpp:78-88`): unless already `DIRTY` or
`WRITEBACK`, set `DIRTY` and append to the cache's dirty list
(`add_to_dirty_list`, `page_cache.cpp:415-418`). -/
def markDirty (s : FsState) (pid : Nat) : FsState :=
  match lookupA s.store pid with
  | some r =>
      if r.state ≠ PageState.dirty ∧ r.state ≠ PageState.writeback then
        { (updPage s pid (fun r => { r with state := PageState.dirty })) with
          dirtyList := s.dirtyList ++ [pid] }
      else s
  | none => s

/-- Embeds `Page::clear_dirty` (`page_cache.cpp:90-99`): if `DIRTY`, set `UPTODATE`
and remove from the dirty list (`remove_from_dirty_list` uses
`std::list::remove`, which removes every equal element). -/
def clearDirty (s : FsState) (pid : Nat) : FsState :=
  match lookupA s.store pid with
  | some r =>
      if r.state = PageState.dirty then
        { (updPage s pid (fun r => { r with state := PageState.uptodate })) with
          dirtyList := s.dirtyList.filter (· ≠ pid) }
      else s
  | none => s

/-- Embeds `Page::lock` (`page_cache.cpp:38-48`): wait until not `LOCKED`, then store
`LOCKED`.  In the sequential semantics the wait is vacuous; the blocking
precondition (state ≠ LOCKED on entry) is carried by the theorems that need
it. -/
def lockPage (s : FsState) (pid : Nat) : FsState :=
  updPage s pid (fun r => { r with state := PageState.locked })

/-- Embeds `Page::unlock` (`page_cache.cpp:50-58`): if `LOCKED`, store `UPTODATE`;
otherwise leave the state as it is.  There is no restoration of a pre-lock
`DIRTY` state in the source. -/
def unlockPage (s : FsState) (pid : Nat) : FsState :=
  updPage s pid
    (fun r => if r.state = PageState.locked then { r with state := PageState.uptodate } else r)

/-- Models `page->set_state(st)` (header, `part_004:64`). -/
def setPageState (s : FsState) (pid : Nat) (st : PageState) : FsState :=
  updPage s pid (fun r => { r with state := st })

/-- Embeds `PageCache::release_page` (`page_cache.cpp:277-294`): pages with a live
reference are ignored; otherwise erase the `(inode, offset)` key from the
index, drop from the LRU and (if dirty) from the dirty list, and decrement
the page count.  The store entry is kept (see the header comment). -/
def releasePage (s : FsState) (pid : Nat) : FsState :=
  match lookupA s.store pid with
  | some r =>
      if r.refCount > 0 then s
      else
        let s1 := { s with index := s.index.filter (fun e => e.1 ≠ (r.inodeId, r.offset)) }
        let s2 := removeFromLru s1 pid
        let s3 := if r.state = PageState.dirty then
            { s2 with dirtyList := s2.dirtyList.filter (· ≠ pid) }
          else s2
        { s3 with currentPages := s3.currentPages - 1 }
  | none => s

/-- Embeds `Page::put` (`page_cache.cpp:31-36`): decrement `ref_count_`; at zero the
cache's `release_page` runs. -/
def putPage (s : FsState) (pid : Nat) : FsState :=
  match lookupA s.store pid with
  | some r =>
      let s1 := updPage s pid (fun r => { r with refCount := r.refCount - 1 })
      if r.refCount - 1 = 0 then releasePage s1 pid else s1
  | none => s

/-- One iteration step plus loop of `PageCache::evict_pages`
(`page_cache.cpp:358-397`), indexed by explicit fuel because the source's
`while` loop does not terminate when every page is pinned (the all-pinned
state rotates the LRU forever); `none` means the fuel ran out, i.e. the
source loops.  Arguments: fuel, `count`, `evicted` so far, state. -/
def evictLoop : Nat → Nat → Nat → FsState → Option FsState
  | 0, _, _, _ => none
  | Nat.succ fuel, count, evicted, s =>
    if evicted < count ∧ s.lru ≠ [] then
      match s.lru.getLast? with
      | none => some s
      | some pid =>
        match lookupA s.store pid with
        | none => some s
        | some r =>
          if r.refCount > 1 then
            -- pinned: pop_back, push_front, try again later
            evictLoop fuel count evicted { s with lru := pid :: s.lru.dropLast }
          else
            -- dirty victims are written back; the write's RESULT is ignored
            -- by the source (page_cache.cpp:380), only the device's side
            -- effect happens
            let s1 :=
              if r.state = PageState.dirty then
                let sector := r.offset / s.dev.sectorSize
                let wr := MemDevice.write s.dev sector r.data PAGE_SZ
                let sA := clearDirty { s with dev := wr.2 } pid
                { sA with writebacks := sA.writebacks + 1 }
              else s
            let s2 := { s1 with index := s1.index.filter (fun e => e.1 ≠ (r.inodeId, r.offset)) }
            let s3 := removeFromLru s2 pid
            evictLoop fuel count (evicted + 1)
              { s3 with currentPages := s3.currentPages - 1, evictions := s3.evictions + 1 }
    else some s

/-- Embeds `PageCache::evict_pages(count)` with fuel that dominates every terminating
run of the loop (each iteration either evicts — at most `count` times — or
rotates one of at most `lru.length` pinned pages between evictions). -/
def evictPages (s : FsState) (count : Nat) : Option FsState :=
  evictLoop ((count + 1) * (s.lru.length + 1) + 1) count 0 s

/-- Embeds `PageCache::allocate_page` (`page_cache.cpp:336-356`): evict if at the
ceiling, then construct a `Page` (constructor `page_cache.cpp:11-23`:
`ref_count_ = 1`, state `CLEAN`, buffer zero-filled) and link it into the
hash map and the LRU front. -/
def allocatePage (s : FsState) (ino off : Nat) : Option (Nat × FsState) :=
  let s1? := if s.currentPages ≥ s.maxPages then evictPages s 1 else some s
  match s1? with
  | none => none
  | some s1 =>
    let pid := s1.nextId
    let r : PageRec :=
      { offset := off, inodeId := ino, refCount := 1, state := PageState.clean,
        data := fun _ => 0, inLru := true }
    some (pid,
      { s1 with
        store := (pid, r) :: s1.store
        index := ((ino, off), pid) :: s1.index
        lru := pid :: s1.lru
        currentPages := s1.currentPages + 1
        nextId := s1.nextId + 1 })

/-- Embeds `PageCache::find_or_create_page` (`page_cache.cpp:133-146`), inlining
`find_page_locked` (`page_cache.cpp:322-334`): on a hit promote in the LRU
and count a hit; on a miss count a miss and allocate. -/
def findOrCreatePage (s : FsState) (ino off : Nat) : Option (Nat × FsState) :=
  match lookupA s.index (ino, off) with
  | some pid => some (pid, { (updateLru s pid) with hits := s.hits + 1 })
  | none => allocatePage { s with misses := s.misses + 1 } ino off

/-- Embeds `PageCache::read_page` (`page_cache.cpp:148-191`): find-or-create; if not
`UPTODATE`, lock, re-check, read the device at `offset / sector_size`, set
`UPTODATE` (or `ERROR` on failure) and unlock.  Returns the page id. -/
def readPage (s : FsState) (ino off : Nat) : Option (CRes Nat × FsState) :=
  match findOrCreatePage s ino off with
  | none => none
  | some (pid, s1) =>
    if pageStateOf s1 pid = some PageState.uptodate then some (.ok pid, s1)
    else
      let s2 := lockPage s1 pid
      if pageStateOf s2 pid = some PageState.uptodate then some (.ok pid, unlockPage s2 pid)
      else
        let sector := off / s2.dev.sectorSize
        match MemDevice.read s2.dev sector PAGE_SZ with
        | .error e => some (.error e, unlockPage (setPageState s2 pid PageState.error) pid)
        | .ok rd =>
          let s3 := updPage s2 pid (fun r => { r with data := overlayFn r.data 0 rd.2 rd.1 })
          some (.ok pid, unlockPage (setPageState s3 pid PageState.uptodate) pid)

/-- The body of `PageCache::sync_pages`'s flush loop for one snapshot entry
(`page_cache.cpp:217-247`): lock the page, re-check `get_state() != DIRTY`
(after `lock()` the state is `LOCKED`, so in the sequential semantics this
check always fires — embedded faithfully below in `syncLoop`), unlock and
continue.  The composed effect is captured here for the proofs. -/
def syncStep (s : FsState) (pid : Nat) : FsState :=
  unlockPage (lockPage s pid) pid

/-- The flush loop of `PageCache::sync_pages` (`page_cache.cpp:216-249`)
over the snapshot vector, including the write-back branch with its
early-exit on a device error; at the end the source returns
`Result<void>(ErrorCode::SUCCESS)`, an err-flagged result. -/
def syncLoop : List Nat → FsState → CRes Unit × FsState
  | [], s => (.error ErrorCode.eSuccess, s)
  | pid :: rest, s =>
    let s1 := lockPage s pid
    if pageStateOf s1 pid ≠ some PageState.dirty then
      syncLoop rest (unlockPage s1 pid)
    else
      let s2 := setPageState s1 pid PageState.writeback
      let sector := ((lookupA s2.store pid).map (·.offset)).getD 0 / s2.dev.sectorSize
      let wr := MemDevice.write s2.dev sector (pageDataOf s2 pid) PAGE_SZ
      let s3 := { s2 with dev := wr.2 }
      match wr.1 with
      | .ok _ =>
        let s4 := clearDirty s3 pid
        syncLoop rest (unlockPage { s4 with writebacks := s4.writebacks + 1 } pid)
      | .error e => (.error e, unlockPage (setPageState s3 pid PageState.error) pid)

/-- Embeds `PageCache::sync_pages(inode)` (`page_cache.cpp:200-250`): snapshot the
dirty list under the cache mutex — keeping pages that match the inode
argument (`nullptr` = all) and are currently `DIRTY` — then run the flush
loop on the snapshot. -/
def syncPages (s : FsState) (inodeArg : Option Nat) : CRes Unit × FsState :=
  let snapshot := s.dirtyList.filter (fun pid =>
    match lookupA s.store pid with
    | some r =>
      (match inodeArg with | none => true | some i => decide (r.inodeId = i)) &&
        decide (r.state = PageState.dirty)
    | none => false)
  syncLoop snapshot s

/-- Per-victim bookkeeping of `PageCache::invalidate_pages`
(`page_cache.cpp:256-273`): remove from the LRU, remove from the dirty list
when dirty, decrement the page count (the index erase is done for the whole
inode at once in `invalidatePages`). -/
def dropFromLists (s : FsState) (pid : Nat) : FsState :=
  let s1 := removeFromLru s pid
  let s2 :=
    match lookupA s1.store pid with
    | some r =>
        if r.state = PageState.dirty then
          { s1 with dirtyList := s1.dirtyList.filter (· ≠ pid) }
        else s1
    | none => s1
  { s2 with currentPages := s2.currentPages - 1 }

/-- Embeds `PageCache::invalidate_pages(inode)` (`page_cache.cpp:252-275`): walk the
whole index and erase EVERY entry whose key's inode matches — there is no
offset comparison in the source, so the pages below the new end of file are
removed along with the rest. -/
def invalidatePages (s : FsState) (ino : Nat) : FsState :=
  let victims := (s.index.filter (fun e => e.1.1 = ino)).map (·.2)
  let s1 := victims.foldl dropFromLists s
  { s1 with index := s1.index.filter (fun e => e.1.1 ≠ ino) }

/-- Embeds `Inode::truncate` (`inode.cpp:379-399`): no-op when the size is unchanged;
when shrinking, `invalidate_pages(this)` — the source's partial-page
computation is commented out (`inode.cpp:388`) — then update `size`. -/
def inodeTruncate (s : FsState) (ino : Nat) (newSize : Nat) : CRes Unit × FsState :=
  let attr := getAttr s ino
  if newSize = attr.size then (.ok (), s)
  else
    let s1 := if newSize < attr.size then invalidatePages s ino else s
    (.ok (), { s1 with inodes := asetA s1.inodes ino { attr with size := newSize } })

/-- Size/mtime epilogue of `Inode::write` (`inode.cpp:122-128`). -/
def inodeWriteFin (s : FsState) (ino pos bw : Nat) : Option (CRes Nat × FsState) :=
  let attr := getAttr s ino
  let attr' := if pos + bw > attr.size then { attr with size := pos + bw } else attr
  some (.ok bw, { s with inodes := asetA s.inodes ino attr' })

/-- The per-page loop of `Inode::write` (`inode.cpp:88-120`), fuel-indexed
(each iteration writes at least one byte, so `buf.length` iterations
suffice; `none` = fuel exhausted or an inner divergence marker).
Arguments after the fixed ones: fuel, `bytes_written`, state. -/
def inodeWriteLoop (ino pos : Nat) (buf : List Nat) : Nat → Nat → FsState → Option (CRes Nat × FsState)
  | 0, bw, s => if bw < buf.length then none else inodeWriteFin s ino pos bw
  | Nat.succ fuel, bw, s =>
    if bw < buf.length then
      let pageOffset := ((pos + bw) / PAGE_SZ) * PAGE_SZ
      let pagePos := (pos + bw) % PAGE_SZ
      let pageBytes := min (buf.length - bw) (PAGE_SZ - pagePos)
      match findOrCreatePage s ino pageOffset with
      | none => none
      | some (pid, s1) =>
        -- partial-page writes read the page first unless it is UPTODATE
        let pre? : Option (CRes Unit × FsState) :=
          if pagePos ≠ 0 ∨ pageBytes ≠ PAGE_SZ then
            if pageStateOf s1 pid ≠ some PageState.uptodate then
              match readPage s1 ino pageOffset with
              | none => none
              | some (.error e, s2) => some (.error e, s2)
              | some (.ok _, s2) => some (.ok (), s2)
            else some (.ok (), s1)
          else some (.ok (), s1)
        match pre? with
        | none => none
        | some (.error e, s2) => some (.error e, putPage s2 pid)
        | some (.ok _, s2) =>
          let s3 := updPage s2 pid
            (fun r => { r with data := overlayFn r.data pagePos (fun i => buf.getD (bw + i) 0) pageBytes })
          let s4 := markDirty s3 pid
          let s5 := putPage s4 pid
          inodeWriteLoop ino pos buf fuel (bw + pageBytes) s5
    else inodeWriteFin s ino pos bw

/-- Embeds `Inode::write` (`inode.cpp:73-129`): permission check via
`attr_.mode.is_writable()`, then the page loop, then the size update.
Returns the byte count written (the error/divergence plumbing is as in the
loop). -/
def inodeWrite (s : FsState) (ino pos : Nat) (buf : List Nat) : Option (CRes Nat × FsState) :=
  if ¬ isWritable (getAttr s ino).mode then some (.error ErrorCode.eAcces, s)
  else inodeWriteLoop ino pos buf buf.length 0 s

/-- The per-page loop of `Inode::read` (`inode.cpp:45-65`), fuel-indexed like
the write loop.  Accumulates the bytes copied out of the pages (the C++
fills the caller's buffer).  Arguments after the fixed ones: fuel,
`bytes_read`, accumulated bytes, state. -/
def inodeReadLoop (ino pos actual : Nat) : Nat → Nat → List Nat → FsState → Option (CRes (List Nat) × FsState)
  | 0, br, acc, s => if br < actual then none else some (.ok acc, s)
  | Nat.succ fuel, br, acc, s =>
    if br < actual then
      let pageOffset := ((pos + br) / PAGE_SZ) * PAGE_SZ
      let pagePos := (pos + br) % PAGE_SZ
      let pageBytes := min (actual - br) (PAGE_SZ - pagePos)
      match readPage s ino pageOffset with
      | none => none
      | some (.error e, s1) => some (.error e, s1)
      | some (.ok pid, s1) =>
        let bytes := (List.range pageBytes).map (fun i => pageDataOf s1 pid (pagePos + i))
        let s2 := putPage s1 pid
        inodeReadLoop ino pos actual fuel (br + pageBytes) (acc ++ bytes) s2
    else some (.ok acc, s)

/-- Embeds `Inode::read` (`inode.cpp:26-71`): 0 bytes at or past EOF, otherwise read
`min(size, attr.size - pos)` bytes through the page cache.  Returns the
bytes read (the count in the C++ is their length). -/
def inodeRead (s : FsState) (ino pos size : Nat) : Option (CRes (List Nat) × FsState) :=
  let attr := getAttr s ino
  if pos ≥ attr.size then some (.ok [], s)
  else
    let actual := min size (attr.size - pos)
    inodeReadLoop ino pos actual actual 0 [] s

/-- Open-file handle (`class File`, `src/unnamed/part_003`): the claims only
need `pos_`. -/
structure FileSt where
  pos : Nat
deriving DecidableEq

/-- The value `2 ^ 64`, the modulus of the source's `u64` (`offset_t`) arithmetic. -/
def U64 : Nat := 2 ^ 64

/-- Embeds `File::seek` (`file.cpp:43-61`): whence 0 = SET, 1 = CUR (u64 addition),
2 = END (`inode->get_size() + offset`); anything else returns
`FS_EINVAL` before `pos_` is touched.  `inodeSize` stands for
`dentry_->get_inode()->get_size()`. -/
def fileSeek (f : FileSt) (inodeSize : Nat) (offset : Nat) (whence : Int) :
    CRes Nat × FileSt :=
  if whence = 0 then (.ok offset, { pos := offset })
  else if whence = 1 then
    let p := (f.pos + offset) % U64
    (.ok p, { pos := p })
  else if whence = 2 then
    let p := (inodeSize + offset) % U64
    (.ok p, { pos := p })
  else (.error ErrorCode.eInval, f)

/-!
Two-thread interleaving model of `PageCache::read_page`
(`page_cache.cpp:148-191`) for one missing key.

Each thread runs the straight-line atomic steps of `read_page` on the shared
page; program counters:

* 0 — `find_or_create_page` (the first thread to run it allocates the CLEAN
  page; the other hits);
* 1 — first `is_uptodate()` check (true → return, pc 7);
* 2 — `Page::lock()` (blocks while the state is LOCKED, then stores LOCKED);
* 3 — second `is_uptodate()` check (true → unlock-and-return, pc 6);
* 4 — the block-device read (the read I/O the claim counts; fills the buffer
  with the device bytes);
* 5 — `set_state(UPTODATE)`;
* 6 — `Page::unlock()` (LOCKED → UPTODATE, otherwise no-op);
* 7 — returned.

`dataDev` abstracts the page buffer: `true` iff it holds the device's bytes
(a freshly allocated zero-filled buffer is `false`; the device content is
treated as distinct from zeros).  `rdA`/`rdB` record which thread has issued
its device read. -/
structure RPState where
  ex : Bool
  ps : PageState
  dataDev : Bool
  pcA : Fin 8
  pcB : Fin 8
  rdA : Bool
  rdB : Bool
deriving DecidableEq

/-- The state type `RPState` is equivalent to a product of finite types. -/
def rpEquiv : RPState ≃ Bool × PageState × Bool × Fin 8 × Fin 8 × Bool × Bool where
  toFun s := (s.ex, s.ps, s.dataDev, s.pcA, s.pcB, s.rdA, s.rdB)
  invFun p := ⟨p.1, p.2.1, p.2.2.1, p.2.2.2.1, p.2.2.2.2.1, p.2.2.2.2.2.1, p.2.2.2.2.2.2⟩
  left_inv _ := rfl
  right_inv _ := rfl

instance : Fintype RPState := Fintype.ofEquiv _ rpEquiv.symm

/-- Initial state: the key is not in the cache and neither thread has
started (`ps` is a placeholder until the page exists). -/
def rpInit : RPState :=
  { ex := false, ps := PageState.clean, dataDev := false,
    pcA := 0, pcB := 0, rdA := false, rdB := false }

/-- One atomic step of thread A of the `read_page` model. -/
def rpStepA (s : RPState) : RPState :=
  if s.pcA = 0 then
    if s.ex then { s with pcA := 1 }
    else { s with pcA := 1, ex := true, ps := PageState.clean, dataDev := false }
  else if s.pcA = 1 then
    if s.ps = PageState.uptodate then { s with pcA := 7 } else { s with pcA := 2 }
  else if s.pcA = 2 then
    if s.ps = PageState.locked then s else { s with pcA := 3, ps := PageState.locked }
  else if s.pcA = 3 then
    if s.ps = PageState.uptodate then { s with pcA := 6 } else { s with pcA := 4 }
  else if s.pcA = 4 then { s with pcA := 5, rdA := true, dataDev := true }
  else if s.pcA = 5 then { s with pcA := 6, ps := PageState.uptodate }
  else if s.pcA = 6 then
    { s with pcA := 7, ps := if s.ps = PageState.locked then PageState.uptodate else s.ps }
  else s

/-- One atomic step of thread B (same program). -/
def rpStepB (s : RPState) : RPState :=
  if s.pcB = 0 then
    if s.ex then { s with pcB := 1 }
    else { s with pcB := 1, ex := true, ps := PageState.clean, dataDev := false }
  else if s.pcB = 1 then
    if s.ps = PageState.uptodate then { s with pcB := 7 } else { s with pcB := 2 }
  else if s.pcB = 2 then
    if s.ps = PageState.locked then s else { s with pcB := 3, ps := PageState.locked }
  else if s.pcB = 3 then
    if s.ps = PageState.uptodate then { s with pcB := 6 } else { s with pcB := 4 }
  else if s.pcB = 4 then { s with pcB := 5, rdB := true, dataDev := true }
  else if s.pcB = 5 then { s with pcB := 6, ps := PageState.uptodate }
  else if s.pcB = 6 then
    { s with pcB := 7, ps := if s.ps = PageState.locked then PageState.uptodate else s.ps }
  else s

/-- Scheduler step: `false` runs thread A, `true` runs thread B. -/
def rpStep (t : Bool) (s : RPState) : RPState :=
  if t then rpStepB s else rpStepA s

/-- Run a schedule from the initial state. -/
def rpExec (sched : List Bool) : RPState :=
  sched.foldl (fun s t => rpStep t s) rpInit

/-- Number of block-device reads issued so far. -/
def rpReadCount (s : RPState) : Nat :=
  (if s.rdA then 1 else 0) + (if s.rdB then 1 else 0)

/-- Inductive invariant of the two-thread `read_page` model (checked over the
whole finite state space). -/
def RPInv (s : RPState) : Prop :=
  (s.ps = PageState.clean ∨ s.ps = PageState.locked ∨ s.ps = PageState.uptodate) ∧
  (s.ex = false → s.pcA = 0 ∧ s.pcB = 0 ∧ s.ps = PageState.clean ∧
    s.dataDev = false ∧ s.rdA = false ∧ s.rdB = false) ∧
  (s.dataDev = (s.rdA || s.rdB)) ∧
  (s.ps = PageState.uptodate → s.rdA = true ∨ s.rdB = true) ∧
  (s.pcA = 5 → s.rdA = true) ∧ (s.pcB = 5 → s.rdB = true) ∧
  ((s.pcA = 6 ∨ s.pcA = 7) → s.rdA = true ∨ s.rdB = true) ∧
  ((s.pcB = 6 ∨ s.pcB = 7) → s.rdA = true ∨ s.rdB = true) ∧
  ((3 ≤ (s.pcA : Nat) ∨ 3 ≤ (s.pcB : Nat)) → s.ps ≠ PageState.clean) ∧
  (s.pcA = 7 → s.pcB = 7 → s.ps = PageState.uptodate)

instance : DecidablePred RPInv := fun s => by unfold RPInv; infer_instance

/-- The adversarial schedule: both threads pass their first `is_uptodate()`
check before either locks; A then completes its read; B's `lock()` sets the
state back to LOCKED, so B's post-lock re-check fails and B issues a second
device read. -/
def rpBadSched : List Bool :=
  [false, true, false, true, false, false, false, false, false,
   true, true, true, true, true]

/-!  Concrete input states for the individual claims.  -/

/-- A read-write 8-sector (4096-byte) zeroed memory device. -/
def devRW : MemDevice := { data := fun _ => 0, size := 4096, sectorSize := 512, readonly := false }

/-- The same device constructed read-only. -/
def devRO : MemDevice := { data := fun _ => 0, size := 4096, sectorSize := 512, readonly := true }

/-- An empty cache over `devRW` with one regular writable file inode 1 of
size 0 (mode 0644, as in the repository's demo), `max_pages_ = 1024` as in
the `g_page_cache` default constructor. -/
def c1s0 : FsState :=
  { dev := devRW, store := [], nextId := 0, index := [], lru := [], dirtyList := [],
    maxPages := 1024, currentPages := 0, hits := 0, misses := 0, evictions := 0,
    writebacks := 0, inodes := [(1, { mode := 420, size := 0 })] }

/-- The bytes of `"hello"`. -/
def helloBytes : List Nat := [104, 101, 108, 108, 111]

/-- The cache state after `inode->write(0, "hello", 5)` on `c1s0`. -/
def c1s1 : FsState :=
  (((inodeWrite c1s0 1 0 helloBytes).getD (.ok 0, c1s0)).2)

/-- A cache holding one dirty page (id 0) of inode 1 at offset 0: the input
for the `sync_pages` claim. -/
def c2rec : PageRec :=
  { offset := 0, inodeId := 1, refCount := 1, state := PageState.dirty,
    data := fun _ => 0, inLru := true }

def c2s0 : FsState :=
  { dev := devRW, store := [(0, c2rec)], nextId := 1, index := [((1, 0), 0)],
    lru := [0], dirtyList := [0], maxPages := 1024, currentPages := 1, hits := 0,
    misses := 0, evictions := 0, writebacks := 0,
    inodes := [(1, { mode := 420, size := 4096 })] }

/-- Inode 1 with size 8192 and two clean cached pages at offsets 0 and 4096:
the input for the truncate claim (shrink to 2048, which lies inside the
page at offset 0). -/
def c3s0 : FsState :=
  { dev := devRW,
    store :=
      [(0, { offset := 0, inodeId := 1, refCount := 1, state := PageState.uptodate,
             data := fun _ => 0, inLru := true }),
       (1, { offset := 4096, inodeId := 1, refCount := 1, state := PageState.uptodate,
             data := fun _ => 0, inLru := true })],
    nextId := 2, index := [((1, 0), 0), ((1, 4096), 1)], lru := [0, 1], dirtyList := [],
    maxPages := 1024, currentPages := 2, hits := 0, misses := 0, evictions := 0,
    writebacks := 0, inodes := [(1, { mode := 420, size := 8192 }), (2, { mode := 420, size := 0 })] }

/-- A cache holding one dirty page: input for the lock/unlock claim. -/
def c4s0 : FsState := c2s0

/-- A cache whose single LRU page is pinned (`ref_count_ = 2`): the state on
which the source's eviction loop spins forever. -/
def c5s0 : FsState :=
  { dev := devRW,
    store := [(0, { offset := 0, inodeId := 1, refCount := 2, state := PageState.uptodate,
                    data := fun _ => 0, inLru := true })],
    nextId := 1, index := [((1, 0), 0)], lru := [0], dirtyList := [], maxPages := 1024,
    currentPages := 1, hits := 0, misses := 0, evictions := 0, writebacks := 0,
    inodes := [(1, { mode := 420, size := 4096 })] }

/-- A read-only device under a cache holding one dirty unpinned page: the
eviction write-back of this victim fails with `ReadOnly`. -/
def c6rec : PageRec :=
  { offset := 0, inodeId := 1, refCount := 1, state := PageState.dirty,
    data := fun _ => 7, inLru := true }

def c6s0 : FsState :=
  { dev := devRO, store := [(0, c6rec)], nextId := 1, index := [((1, 0), 0)],
    lru := [0], dirtyList := [0], maxPages := 1024, currentPages := 1, hits := 0,
    misses := 0, evictions := 0, writebacks := 0,
    inodes := [(1, { mode := 420, size := 4096 })] }

/-- The cache state after evicting one page from `c6s0`. -/
def c6s1 : FsState := (evictPages c6s0 1).getD c6s0

/-- The truncate result state for the concrete truncate scenario. -/
def c3s1 : FsState := (inodeTruncate c3s0 1 2048).2

/-- The find-or-create result state for the zero-fill scenario. -/
def c10s1 : FsState := ((findOrCreatePage c1s0 1 0).getD (0, c1s0)).2

/-!  Helper lemmas about association lists and page updates.  -/

theorem lookupA_map_upd {α : Type} (l : List (Nat × α)) (pid p : Nat) (f : α → α) :
    lookupA (l.map (fun e => if e.1 = pid then (e.1, f e.2) else e)) p =
      if p = pid then (lookupA l p).map f else lookupA l p := by
  induction l with
  | nil => simp [lookupA]
  | cons e t ih =>
    obtain ⟨k, v⟩ := e
    simp only [List.map_cons]
    by_cases hk : k = pid
    · subst hk
      rw [if_pos rfl]
      by_cases hp : k = p
      · subst hp
        simp [lookupA]
      · have hp' : ¬ p = k := fun hh => hp hh.symm
        simp only [lookupA, if_neg hp, if_neg hp', ih]
    · rw [if_neg hk]
      by_cases hp : k = p
      · subst hp
        have hpid : ¬ k = pid := hk
        simp [lookupA, hpid]
      · simp only [lookupA, if_neg hp, ih]

theorem lookupA_erase_key {κ α : Type} [DecidableEq κ] (l : List (κ × α)) (k : κ) :
    lookupA (l.filter (fun e => e.1 ≠ k)) k = none := by
  induction l with
  | nil => rfl
  | cons e t ih =>
    by_cases h : e.1 = k
    · simpa [List.filter_cons, h] using ih
    · simpa [List.filter_cons, h, lookupA] using ih

theorem lookupA_filter_fst {α : Type} (l : List ((Nat × Nat) × α)) (ino off : Nat) :
    lookupA (l.filter (fun e => e.1.1 ≠ ino)) (ino, off) = none := by
  induction l with
  | nil => rfl
  | cons e t ih =>
    by_cases h : e.1.1 = ino
    · simpa [List.filter_cons, h] using ih
    · have hkey : ¬ e.1 = (ino, off) := by
        intro hh
        exact h (by rw [hh])
      simpa [List.filter_cons, h, lookupA, hkey] using ih

theorem lookupA_filter_fst_other {α : Type} (l : List ((Nat × Nat) × α)) (ino j off : Nat)
    (h : j ≠ ino) :
    lookupA (l.filter (fun e => e.1.1 ≠ ino)) (j, off) = lookupA l (j, off) := by
  induction l with
  | nil => rfl
  | cons e t ih =>
    obtain ⟨⟨ei, eo⟩, ev⟩ := e
    by_cases he : ei = ino
    · simpa [List.filter_cons, he, lookupA, Ne.symm h] using ih
    · by_cases hp : (ei, eo) = (j, off)
      · injection hp with h1 h2
        subst h1
        subst h2
        simp [List.filter_cons, he, lookupA]
      · simpa [List.filter_cons, he, lookupA, hp] using ih

theorem lookupA_updPage (s : FsState) (pid p : Nat) (f : PageRec → PageRec) :
    lookupA (updPage s pid f).store p =
      if p = pid then (lookupA s.store p).map f else lookupA s.store p := by
  unfold updPage
  exact lookupA_map_upd s.store pid p f

/-!  C7 — read-only write refusal.  -/

/-- C7: `MemoryBlockDevice::write` on a device constructed read-only returns
`ReadOnly` and returns before the backing bytes are touched: the resulting
device (including every byte of `data_`) is exactly the input device. -/
theorem c7_readonly_write_refused (d : MemDevice) (sector : Nat) (buf : Nat → Nat)
    (wsize : Nat) (h : d.readonly = true) :
    MemDevice.write d sector buf wsize = (.error ErrorCode.eRoFs, d) := by
  simp [MemDevice.write, h]

/-- C7 witness: the concrete read-only device of scenario S4 (a 512-byte
write of `0xAA` bytes at sector 0). -/
theorem c7_readonly_write_refused_witness :
    devRO.readonly = true ∧
      MemDevice.write devRO 0 (fun _ => 170) 512 = (.error ErrorCode.eRoFs, devRO) :=
  ⟨rfl, c7_readonly_write_refused devRO 0 (fun _ => 170) 512 rfl⟩

/-!  C8 — `File::seek` semantics.  -/

/-- C8: `File::seek` sets the position to `offset` for whence 0, to
`pos + offset` for whence 1, to the inode size plus `offset` for whence 2,
returning the new position each time; any other whence yields
`InvalidArgument` with the position untouched.  (The additions are the
source's `u64` additions; the stated hypotheses keep them below `2^64`.) -/
theorem c8_seek_semantics (pos inodeSz offset : Nat)
    (h1 : pos + offset < U64) (h2 : inodeSz + offset < U64) :
    fileSeek ⟨pos⟩ inodeSz offset 0 = (.ok offset, ⟨offset⟩) ∧
    fileSeek ⟨pos⟩ inodeSz offset 1 = (.ok (pos + offset), ⟨pos + offset⟩) ∧
    fileSeek ⟨pos⟩ inodeSz offset 2 = (.ok (inodeSz + offset), ⟨inodeSz + offset⟩) ∧
    ∀ w : Int, w ≠ 0 → w ≠ 1 → w ≠ 2 →
      fileSeek ⟨pos⟩ inodeSz offset w = (.error ErrorCode.eInval, ⟨pos⟩) := by
  refine ⟨rfl, ?_, ?_, ?_⟩
  · simp [fileSeek, Nat.mod_eq_of_lt h1]
  · simp [fileSeek, Nat.mod_eq_of_lt h2]
  · intro w hw0 hw1 hw2
    simp [fileSeek, hw0, hw1, hw2]

/-- C8 witness: position 7, inode size 100, offset 3, plus the invalid
whence 5. -/
theorem c8_seek_semantics_witness :
    7 + 3 < U64 ∧ 100 + 3 < U64 ∧
    fileSeek ⟨7⟩ 100 3 1 = (.ok 10, ⟨10⟩) ∧
    fileSeek ⟨7⟩ 100 3 5 = (.error ErrorCode.eInval, ⟨7⟩) :=
  ⟨by decide, by decide,
   (c8_seek_semantics 7 100 3 (by decide) (by decide)).2.1,
   (c8_seek_semantics 7 100 3 (by decide) (by decide)).2.2.2 5 (by decide) (by decide) (by decide)⟩

/-!  C10 — freshly created pages are zero-filled.  -/

/-- C10: for a key not present in the cache, `find_or_create_page` allocates
a fresh page whose whole `PAGE_SIZE` buffer is zero-filled (`Page::Page`
does `memset(data_, 0, PAGE_SIZE)`), in the `CLEAN` state. -/
theorem c10_fresh_page_zero_filled (s : FsState) (ino off pid : Nat) (s' : FsState)
    (hmiss : lookupA s.index (ino, off) = none)
    (h : findOrCreatePage s ino off = some (pid, s')) :
    ∃ r : PageRec, lookupA s'.store pid = some r ∧ r.state = PageState.clean ∧
      ∀ i, i < PAGE_SZ → r.data i = 0 := by
  unfold findOrCreatePage at h
  rw [hmiss] at h
  unfold allocatePage at h
  dsimp only [] at h
  split at h
  · exact absurd h (by simp)
  · rename_i s1 heq
    simp only [Option.some.injEq, Prod.mk.injEq] at h
    obtain ⟨hpid, hs'⟩ := h
    refine ⟨{ offset := off, inodeId := ino, refCount := 1, state := PageState.clean,
              data := fun _ => 0, inLru := true }, ?_, rfl, fun i _ => rfl⟩
    rw [← hs', ← hpid]
    simp [lookupA]

/-- C10 witness: the empty cache `c1s0` and key `(1, 0)`. -/
theorem c10_fresh_page_zero_filled_witness :
    lookupA c1s0.index (1, 0) = none ∧
    ∃ r : PageRec, lookupA c10s1.store 0 = some r ∧ r.state = PageState.clean ∧
      ∀ i, i < PAGE_SZ → r.data i = 0 :=
  ⟨rfl, c10_fresh_page_zero_filled c1s0 1 0 0 c10s1 rfl rfl⟩

/-!  C4 — `lock()`/`unlock()` and the Dirty state.  -/

/-- C4 counterexample: a page that is `DIRTY` immediately before `lock()`
comes back from `unlock()` as `UPTODATE`, not `DIRTY` — `Page::unlock`
unconditionally stores `UPTODATE` when it sees `LOCKED`; the claimed
restoration of the pre-lock dirty status does not exist in the source. -/
theorem c4_unlock_does_not_restore_dirty :
    pageStateOf c4s0 0 = some PageState.dirty ∧
    pageStateOf (unlockPage (lockPage c4s0 0) 0) 0 = some PageState.uptodate ∧
    (some PageState.uptodate ≠ some PageState.dirty) := by
  refine ⟨rfl, rfl, by decide⟩

/-- C4 amended: for every page (not already `LOCKED`, so that `lock()` does
not block), the `lock()`/`unlock()` pair leaves the page `UPTODATE`
regardless of whether it was `DIRTY` before — `unlock()` always returns a
`LOCKED` page to `UPTODATE`. -/
theorem c4_lock_unlock_always_uptodate (s : FsState) (pid : Nat) (r : PageRec)
    (hl : lookupA s.store pid = some r) (_hnl : r.state ≠ PageState.locked) :
    pageStateOf (unlockPage (lockPage s pid) pid) pid = some PageState.uptodate := by
  unfold pageStateOf unlockPage lockPage
  rw [lookupA_updPage, if_pos rfl, lookupA_updPage, if_pos rfl, hl]
  simp

/-- C4 witness: the dirty page of `c4s0`. -/
theorem c4_lock_unlock_always_uptodate_witness :
    lookupA c4s0.store 0 = some c2rec ∧ c2rec.state ≠ PageState.locked ∧
    pageStateOf (unlockPage (lockPage c4s0 0) 0) 0 = some PageState.uptodate :=
  ⟨rfl, by decide, c4_lock_unlock_always_uptodate c4s0 0 c2rec rfl (by decide)⟩

/-!  C5 — the eviction loop does not terminate when every page is pinned.  -/

/-- C5: on the reachable state `c5s0`, whose only LRU page is pinned
(`ref_count_ = 2 > 1`), the source's eviction loop makes no progress: for
EVERY fuel bound the loop is still running (the pinned page is popped from
the tail and pushed back to the head, reproducing the same state), i.e.
`evict_pages(1)` never returns.  This refutes termination for all reachable
cache states and confirms the claim's reading of the spec (the spec itself
notes the source "appears to loop forever if no page is evictable"). -/
theorem c5_evict_pages_spins_on_all_pinned :
    ∀ fuel : Nat, evictLoop fuel 1 0 c5s0 = none := by
  intro fuel
  induction fuel with
  | zero => rfl
  | succ n ih => exact ih

/-!  C2 — `sync_pages` resolves every page that was Dirty at call time.  -/

theorem pageStateOf_lockPage_self (s : FsState) (q : Nat) :
    pageStateOf (lockPage s q) q = (lookupA s.store q).map (fun _ => PageState.locked) := by
  unfold pageStateOf lockPage
  rw [lookupA_updPage, if_pos rfl]
  cases lookupA s.store q <;> rfl

/-- After `page->lock()` the re-check `get_state() != DIRTY` in `sync_pages`
always fires (the state is `LOCKED`), so each snapshot entry is processed by
the lock/unlock pair alone: the write-back branch of the source is dead. -/
theorem syncLoop_cons (q : Nat) (t : List Nat) (s : FsState) :
    syncLoop (q :: t) s = syncLoop t (syncStep s q) := by
  have hguard : pageStateOf (lockPage s q) q ≠ some PageState.dirty := by
    rw [pageStateOf_lockPage_self]
    cases lookupA s.store q <;> simp
  simp only [syncLoop]
  rw [if_pos hguard]
  rfl

theorem syncStep_lookup_self (s : FsState) (q : Nat) (r : PageRec)
    (h : lookupA s.store q = some r) :
    lookupA (syncStep s q).store q = some { r with state := PageState.uptodate } := by
  unfold syncStep unlockPage lockPage
  rw [lookupA_updPage, if_pos rfl, lookupA_updPage, if_pos rfl, h]
  simp

theorem syncStep_lookup_other (s : FsState) (q p : Nat) (hne : p ≠ q) :
    lookupA (syncStep s q).store p = lookupA s.store p := by
  unfold syncStep unlockPage lockPage
  rw [lookupA_updPage, if_neg hne, lookupA_updPage, if_neg hne]

/-- Effect of the whole flush loop on one page's store entry. -/
theorem syncLoop_store (l : List Nat) :
    ∀ (s : FsState) (pid : Nat) (r : PageRec), lookupA s.store pid = some r →
      (pid ∈ l → ∃ r', lookupA (syncLoop l s).2.store pid = some r' ∧
        r'.state = PageState.uptodate) ∧
      (pid ∉ l → lookupA (syncLoop l s).2.store pid = some r) := by
  induction l with
  | nil =>
    intro s pid r h
    refine ⟨fun hmem => absurd hmem (List.not_mem_nil pid), fun _ => ?_⟩
    simpa [syncLoop] using h
  | cons q t ih =>
    intro s pid r h
    rw [syncLoop_cons]
    by_cases hq : pid = q
    · subst hq
      have h2 := syncStep_lookup_self s pid r h
      constructor
      · intro _
        by_cases hm : pid ∈ t
        · exact (ih _ pid _ h2).1 hm
        · exact ⟨_, (ih _ pid _ h2).2 hm, rfl⟩
      · intro hn
        exact absurd (List.mem_cons_self pid t) hn
    · have h2 : lookupA (syncStep s q).store pid = some r := by
        rw [syncStep_lookup_other s q pid hq]
        exact h
      constructor
      · intro hmem
        have hmt : pid ∈ t := by
          cases List.mem_cons.mp hmem with
          | inl hh => exact absurd hh hq
          | inr hh => exact hh
        exact (ih _ pid _ h2).1 hmt
      · intro hn
        have hnt : pid ∉ t := fun hh => hn (List.mem_cons_of_mem q hh)
        exact (ih _ pid _ h2).2 hnt

/-- C2: whatever result `sync_pages(inode)` returns, every page of that inode
that was `DIRTY` (and hence on the dirty list) at the time of the call is
`UPTODATE` or in `ERROR` when it returns — in fact always `UPTODATE`: the
snapshot loop locks each page, the post-lock `!= DIRTY` re-check always
fires, and `unlock()` leaves the page `UPTODATE`; no page that was Dirty at
call time is still Dirty at return. -/
theorem c2_sync_pages_dirty_resolved (s : FsState) (ino pid : Nat) (r : PageRec)
    (hl : lookupA s.store pid = some r) (hdirty : r.state = PageState.dirty)
    (hino : r.inodeId = ino) (hmem : pid ∈ s.dirtyList) :
    ∃ r', lookupA (syncPages s (some ino)).2.store pid = some r' ∧
      (r'.state = PageState.uptodate ∨ r'.state = PageState.error) := by
  unfold syncPages
  have hsnap : pid ∈ s.dirtyList.filter (fun pid =>
      match lookupA s.store pid with
      | some r =>
        (match some ino with | none => true | some i => decide (r.inodeId = i)) &&
          decide (r.state = PageState.dirty)
      | none => false) := by
    refine List.mem_filter.mpr ⟨hmem, ?_⟩
    rw [hl]
    simp [hino, hdirty]
  obtain ⟨r', h1, h2⟩ := (syncLoop_store _ s pid r hl).1 hsnap
  exact ⟨r', h1, Or.inl h2⟩

/-- C2 witness: the one-dirty-page cache `c2s0`. -/
theorem c2_sync_pages_dirty_resolved_witness :
    lookupA c2s0.store 0 = some c2rec ∧ c2rec.state = PageState.dirty ∧
    c2rec.inodeId = 1 ∧ 0 ∈ c2s0.dirtyList ∧
    (∃ r', lookupA (syncPages c2s0 (some 1)).2.store 0 = some r' ∧
      (r'.state = PageState.uptodate ∨ r'.state = PageState.error)) :=
  ⟨rfl, rfl, rfl, by decide,
   c2_sync_pages_dirty_resolved c2s0 1 0 c2rec rfl rfl rfl (by decide)⟩

/-!  C3 — truncate and the page cache.  -/

theorem dropFromLists_index (s : FsState) (pid : Nat) :
    (dropFromLists s pid).index = s.index := by
  unfold dropFromLists removeFromLru updPage
  dsimp only
  repeat' split
  all_goals rfl

theorem foldl_dropFromLists_index (L : List Nat) :
    ∀ s : FsState, (L.foldl dropFromLists s).index = s.index := by
  induction L with
  | nil => intro s; rfl
  | cons q t ih =>
    intro s
    rw [List.foldl_cons, ih, dropFromLists_index]

theorem invalidatePages_index (s : FsState) (ino : Nat) :
    (invalidatePages s ino).index = s.index.filter (fun e => e.1.1 ≠ ino) := by
  simp only [invalidatePages]
  rw [foldl_dropFromLists_index]

/-- C3 counterexample: inode 1 has size 8192 with pages cached at offsets 0
and 4096; `truncate(2048)` shrinks the file so that the new end of file lies
inside the page at offset 0 — the partial-boundary page the claim says is
retained — yet after the call that page is no longer in the cache index
(`Inode::truncate` calls `invalidate_pages(inode)`, which drops every page
of the inode). -/
theorem c3_truncate_drops_boundary_page :
    (getAttr c3s0 1).size = 8192 ∧ 2048 < 8192 ∧
    lookupA c3s0.index (1, 0) = some 0 ∧
    lookupA c3s1.index (1, 0) = none := by decide

/-- C3 amended: for every shrinking `truncate(new_size)`, ALL cached pages of
the inode are removed from the cache — including the partial-boundary page
and the pages wholly below the new end — while pages of other inodes are
untouched. -/
theorem c3_truncate_invalidates_all_inode_pages (s : FsState) (ino newSize : Nat)
    (hshrink : newSize < (getAttr s ino).size) :
    (∀ off, lookupA (inodeTruncate s ino newSize).2.index (ino, off) = none) ∧
    (∀ j off, j ≠ ino →
      lookupA (inodeTruncate s ino newSize).2.index (j, off) = lookupA s.index (j, off)) := by
  simp only [inodeTruncate]
  rw [if_neg (by omega : ¬ newSize = (getAttr s ino).size), if_pos hshrink]
  constructor
  · intro off
    show lookupA (invalidatePages s ino).index (ino, off) = none
    rw [invalidatePages_index]
    exact lookupA_filter_fst _ ino off
  · intro j off hj
    show lookupA (invalidatePages s ino).index (j, off) = lookupA s.index (j, off)
    rw [invalidatePages_index]
    exact lookupA_filter_fst_other _ ino j off hj

/-- C3 witness: the shrink of `c3s0` to 2048; inode 2's (empty) key space is
untouched. -/
theorem c3_truncate_invalidates_all_inode_pages_witness :
    2048 < (getAttr c3s0 1).size ∧
    lookupA c3s1.index (1, 0) = none ∧
    lookupA c3s1.index (2, 0) = lookupA c3s0.index (2, 0) :=
  ⟨by decide,
   (c3_truncate_invalidates_all_inode_pages c3s0 1 2048 (by decide)).1 0,
   (c3_truncate_invalidates_all_inode_pages c3s0 1 2048 (by decide)).2 2 0 (by decide)⟩

/-!  C6 — eviction of a dirty victim whose write-back fails.  -/

/-- One unfolding of the eviction loop (syntactic restatement of the
`Nat.succ` equation of `evictLoop`). -/
theorem evictLoop_succ (fuel count evicted : Nat) (s : FsState) :
    evictLoop (fuel + 1) count evicted s =
      (if evicted < count ∧ s.lru ≠ [] then
        match s.lru.getLast? with
        | none => some s
        | some pid =>
          match lookupA s.store pid with
          | none => some s
          | some r =>
            if r.refCount > 1 then
              evictLoop fuel count evicted { s with lru := pid :: s.lru.dropLast }
            else
              let s1 :=
                if r.state = PageState.dirty then
                  let sector := r.offset / s.dev.sectorSize
                  let wr := MemDevice.write s.dev sector r.data PAGE_SZ
                  let sA := clearDirty { s with dev := wr.2 } pid
                  { sA with writebacks := sA.writebacks + 1 }
                else s
              let s2 := { s1 with index := s1.index.filter (fun e => e.1 ≠ (r.inodeId, r.offset)) }
              let s3 := removeFromLru s2 pid
              evictLoop fuel count (evicted + 1)
                { s3 with currentPages := s3.currentPages - 1, evictions := s3.evictions + 1 }
      else some s) := rfl

/-- The update `updPage` only touches the store. -/
theorem updPage_index (s : FsState) (pid : Nat) (f : PageRec → PageRec) :
    (updPage s pid f).index = s.index := rfl

theorem updPage_dev (s : FsState) (pid : Nat) (f : PageRec → PageRec) :
    (updPage s pid f).dev = s.dev := rfl

theorem updPage_writebacks (s : FsState) (pid : Nat) (f : PageRec → PageRec) :
    (updPage s pid f).writebacks = s.writebacks := rfl

/-- C6 amended: when the eviction victim (here the sole LRU page) is Dirty,
unpinned, and the block-device write fails (read-only device, so `write`
returns `ReadOnly`), the source IGNORES the write result
(`page_cache.cpp:380`): the victim is still unlinked from the index, but its
state becomes `UPTODATE` via `clear_dirty()` — not `ERROR` — and the
write-back counter is incremented even though no write-back happened; the
device is untouched. -/
theorem c6_evict_dirty_write_failure (s : FsState) (pid : Nat) (r : PageRec)
    (hlru : s.lru = [pid]) (hl : lookupA s.store pid = some r)
    (hrc : r.refCount ≤ 1) (hdirty : r.state = PageState.dirty)
    (hinlru : r.inLru = true) (hro : s.dev.readonly = true) :
    ∃ s', evictPages s 1 = some s' ∧
      pageStateOf s' pid = some PageState.uptodate ∧
      lookupA s'.index (r.inodeId, r.offset) = none ∧
      s'.writebacks = s.writebacks + 1 ∧ s'.dev = s.dev := by
  unfold evictPages
  rw [hlru]
  show ∃ s', evictLoop 5 1 0 s = some s' ∧ _
  rw [show (5 : Nat) = 4 + 1 from rfl, evictLoop_succ]
  rw [if_pos (⟨Nat.zero_lt_one, by rw [hlru]; simp⟩ : 0 < 1 ∧ s.lru ≠ [])]
  rw [hlru]
  rw [show ([pid] : List Nat).getLast? = some pid from rfl]
  dsimp only
  rw [hl]
  dsimp only
  rw [if_neg (by omega : ¬ r.refCount > 1), if_pos hdirty]
  simp only [MemDevice.write, if_pos hro]
  simp only [clearDirty, hl, hdirty, reduceIte]
  simp only [removeFromLru, lookupA_updPage, if_pos rfl, hl, Option.map_some', hinlru, reduceIte]
  rw [show (4 : Nat) = 3 + 1 from rfl, evictLoop_succ]
  rw [if_neg (by omega : ¬ ((0 + 1 < 1) ∧ _))]
  refine ⟨_, rfl, ?_, ?_, ?_, ?_⟩
  · simp [pageStateOf, lookupA_updPage, hl]
  · simp only [updPage_index]
    exact lookupA_erase_key _ _
  · simp [updPage_writebacks]
  · simp [updPage_dev]

/-- C6 counterexample: evicting the dirty page of `c6s0` over the read-only
device leaves the victim `UPTODATE` (the claim says `ERROR`) and counts one
write-back (the claim says the counter reflects only successful
write-backs, i.e. stays 0). -/
theorem c6_failed_writeback_not_error_state :
    pageStateOf c6s1 0 = some PageState.uptodate ∧
    (some PageState.uptodate ≠ some PageState.error) ∧
    c6s1.writebacks = 1 ∧ c6s0.writebacks = 0 ∧
    lookupA c6s1.index (1, 0) = none := by
  refine ⟨rfl, by decide, rfl, rfl, rfl⟩

/-- C6 witness: `c6s0` instantiates every hypothesis of the amended claim. -/
theorem c6_evict_dirty_write_failure_witness :
    c6s0.lru = [0] ∧ lookupA c6s0.store 0 = some c6rec ∧ c6rec.refCount ≤ 1 ∧
    c6rec.state = PageState.dirty ∧ c6rec.inLru = true ∧ c6s0.dev.readonly = true ∧
    (∃ s', evictPages c6s0 1 = some s' ∧
      pageStateOf s' 0 = some PageState.uptodate ∧
      lookupA s'.index (c6rec.inodeId, c6rec.offset) = none ∧
      s'.writebacks = c6s0.writebacks + 1 ∧ s'.dev = c6s0.dev) :=
  ⟨rfl, rfl, by decide, rfl, rfl, rfl,
   c6_evict_dirty_write_failure c6s0 0 c6rec rfl rfl (by decide) rfl rfl rfl⟩

/-!  C1 — write-then-read through the inode layer.  -/

set_option maxRecDepth 100000 in
/-- C1, evaluated at the failing input: on a fresh size-0 file over a zeroed
device, `write(0, "hello", 5)` succeeds and returns 5, and the size becomes
`max(0, 0+5) = 5` as the claim states — but the subsequent `read(0, 5)`
returns five ZERO bytes, not `"hello"`: `Inode::write`'s trailing
`page->put()` drops the page's only reference, so `release_page` evicts the
freshly written Dirty page from the cache, and the read re-fetches the
never-written device bytes (independently, `read_page` re-reads even a
cached Dirty page from disk because `is_uptodate()` excludes `DIRTY`).  The
read-back part of the claim is therefore false on the code. -/
theorem c1_write_then_read_returns_device_bytes :
    (inodeWrite c1s0 1 0 helloBytes).map (fun p => p.1) = some (Except.ok 5) ∧
    (getAttr c1s1 1).size = 5 ∧
    (inodeRead c1s1 1 0 5).map (fun p => p.1) = some (Except.ok [0, 0, 0, 0, 0]) ∧
    ([0, 0, 0, 0, 0] : List Nat) ≠ helloBytes := by
  refine ⟨rfl, rfl, rfl, by decide⟩

/-!  C9 — concurrent `read_page` theorems.  -/

theorem rpInvInit : RPInv rpInit := by decide

set_option maxHeartbeats 2000000 in
theorem rpInvStep : ∀ s : RPState, RPInv s → RPInv (rpStepA s) ∧ RPInv (rpStepB s) := by
  intro s
  obtain ⟨ex, ps, dd, pcA, pcB, rdA, rdB⟩ := s
  revert ex ps dd rdA rdB
  fin_cases pcA <;> fin_cases pcB <;> decide

theorem rpInvExec : ∀ (sched : List Bool) (s : RPState), RPInv s →
    RPInv (sched.foldl (fun s t => rpStep t s) s) := by
  intro sched
  induction sched with
  | nil => intro s h; exact h
  | cons t ts ih =>
    intro s h
    rw [List.foldl_cons]
    cases t
    · exact ih _ (rpInvStep s h).1
    · exact ih _ (rpInvStep s h).2

set_option maxHeartbeats 2000000 in
theorem rpFinal : ∀ s : RPState, RPInv s → s.pcA = 7 → s.pcB = 7 →
    s.ps = PageState.uptodate ∧ s.dataDev = true ∧
    1 ≤ rpReadCount s ∧ rpReadCount s ≤ 2 := by
  intro s
  obtain ⟨ex, ps, dd, pcA, pcB, rdA, rdB⟩ := s
  revert ex ps dd rdA rdB
  fin_cases pcA <;> fin_cases pcB <;> decide

/-- C9 counterexample: under the interleaving `rpBadSched` both readers of
the same missing key run to completion and the block device observes TWO
read I/Os, not exactly one — the post-lock `is_uptodate()` re-check can
never succeed because `lock()` itself has just set the state to `LOCKED`. -/
theorem c9_two_reads_interleaving :
    (rpExec rpBadSched).pcA = 7 ∧ (rpExec rpBadSched).pcB = 7 ∧
    rpReadCount (rpExec rpBadSched) = 2 ∧ (2 : Nat) ≠ 1 := by decide

/-- C9 amended: for two concurrent `read_page` callers on the same missing
key, in EVERY interleaving that completes both calls the device observes at
least one and at most one read PER CALLER (so up to two in total, and two
are in fact reached — see the counterexample), and both callers still end
with the shared page Uptodate and holding the device's bytes (hence
identical contents for both). -/
theorem c9_concurrent_read_page_bounded : ∀ sched : List Bool,
    (rpExec sched).pcA = 7 → (rpExec sched).pcB = 7 →
    (rpExec sched).ps = PageState.uptodate ∧ (rpExec sched).dataDev = true ∧
    1 ≤ rpReadCount (rpExec sched) ∧ rpReadCount (rpExec sched) ≤ 2 := by
  intro sched h1 h2
  exact rpFinal _ (rpInvExec sched rpInit rpInvInit) h1 h2

/-- C9 witness: the adversarial schedule completes both threads. -/
theorem c9_concurrent_read_page_bounded_witness :
    (rpExec rpBadSched).pcA = 7 ∧ (rpExec rpBadSched).pcB = 7 ∧
    ((rpExec rpBadSched).ps = PageState.uptodate ∧ (rpExec rpBadSched).dataDev = true ∧
      1 ≤ rpReadCount (rpExec rpBadSched) ∧ rpReadCount (rpExec rpBadSched) ≤ 2) :=
  ⟨by decide, by decide, c9_concurrent_read_page_bounded rpBadSched (by decide) (by decide)⟩
